import Mathlib

/-!
Shallow embedding of the SigNeedPro core (placeholder scanner, placement
store, embedding engine, document store) and proofs about it.

Machine floating-point numbers of the source are modelled as rationals;
JavaScript `undefined`/absent optional fields are modelled with `Option`,
and the numeric falsy coercion `v || d` with `jsOr`.
-/

namespace SigNeedPro

/-- Forward y-transform, inline in `scanForSignatures`
(`uiY = viewport.height - pdfY - h; y = uiY / viewport.height`). -/
def toNormalizedTopLeft (pageContentY glyphHeight pageHeight : ℚ) : ℚ :=
  (pageHeight - pageContentY - glyphHeight) / pageHeight

/-- Inverse y-transform, inline in `embedSignatures`
(`yPos = height - (sig.y * height) - pngDims.height`). -/
def fromNormalizedY (normalizedY markHeight pageHeight : ℚ) : ℚ :=
  pageHeight - normalizedY * pageHeight - markHeight

/-- JavaScript numeric `v || d`: `0` (and absent, which coerces the same
way here) falls back to the default. -/
def jsOr (v d : ℚ) : ℚ := if v = 0 then d else v

/-- Model of JavaScript `s.includes(pat)`: the pattern's character
sequence occurs contiguously inside the string's character sequence. -/
def strContains (s pat : String) : Bool := decide (List.IsInfix pat.data s.data)

/-- One text fragment of a page's text layer, as pdfjs reports it:
`transform[4]`/`transform[5]` are the page-unit origin; an unreported
width or height is `0` (JS falsy). -/
structure TextItem where
  str : String
  tx4 : ℚ
  tx5 : ℚ
  width : ℚ
  height : ℚ
deriving DecidableEq

/-- Page viewport at scale 1.0: the page dimensions in page units. -/
structure Viewport where
  width : ℚ
  height : ℚ
deriving DecidableEq

/-- One page of the parsed document; `textContent = none` models
`page.getTextContent()` throwing for that page. -/
structure Page where
  viewport : Viewport
  textContent : Option (List TextItem)

/-- A parsed document as the scanner sees it. -/
structure PDF where
  pages : List Page

/-- Placement record (`SignatureLocation` of `types.ts`): normalized
top-left rectangle plus optional attached mark payload (`value`). -/
structure SignatureLocation where
  id : String
  pageIndex : Nat
  x : ℚ
  y : ℚ
  width : ℚ
  height : ℚ
  value : Option String := none
deriving DecidableEq

/-- Body of the scanner's push for one matching fragment: fallback height
12, nominal 150 by 60 box, normalized against the viewport. The id is the
`k`-th output of the id generator (`Math.random().toString(36).substr(2,9)`
modelled as an oracle `gen`). -/
def mkLoc (gen : Nat → String) (k pageIdx : Nat) (vp : Viewport)
    (item : TextItem) : SignatureLocation :=
  let h := jsOr item.height 12
  { id := gen k
    pageIndex := pageIdx
    x := item.tx4 / vp.width
    y := toNormalizedTopLeft item.tx5 h vp.height
    width := 150 / vp.width
    height := 60 / vp.height
    value := none }

/-- Inner loop of `scanForSignatures` over one page's fragments; `k`
counts how many ids the generator has produced so far. -/
def scanPageItems (gen : Nat → String) :
    Nat → Nat → Viewport → List TextItem → List SignatureLocation
  | _, _, _, [] => []
  | k, pageIdx, vp, item :: rest =>
    if strContains item.str "$signature" then
      mkLoc gen k pageIdx vp item :: scanPageItems gen (k + 1) pageIdx vp rest
    else
      scanPageItems gen k pageIdx vp rest

/-- Outer loop of `scanForSignatures` over the pages. The whole loop sits
inside one `try`; a page whose text extraction throws
(`textContent = none`) aborts the loop, so the accumulated earlier
placements are returned and later pages are never visited. -/
def scanPages (gen : Nat → String) :
    Nat → Nat → List Page → List SignatureLocation
  | _, _, [] => []
  | k, pageIdx, pg :: rest =>
    match pg.textContent with
    | none => []
    | some items =>
      let locs := scanPageItems gen k pageIdx pg.viewport items
      locs ++ scanPages gen (k + locs.length) (pageIdx + 1) rest

/-- The scanner `scanForSignatures`: `none` input models bytes that fail
to decode (`atob`/`getDocument` throwing); the surrounding `catch` turns
that into the empty result. Page indices are 0-based as in the source
(`pageIndex: i - 1`). -/
def scanForSignatures (gen : Nat → String) : Option PDF → List SignatureLocation
  | none => []
  | some pdf => scanPages gen 0 0 pdf.pages

/-- Mark attachment, from `confirmSignature` of the signing interface:
if the signature pad is empty the update is rejected with an alert
(modelled as `none`); otherwise every placement whose id equals the
active id gets its `value` replaced by the drawn data-URL, via a plain
`map` with no lookup check. -/
def confirmSignature (padEmpty : Bool) (activeSignId : String)
    (sigs : List SignatureLocation) (dataUrl : String) :
    Option (List SignatureLocation) :=
  if padEmpty then none
  else some (sigs.map fun s =>
    if s.id = activeSignId then { s with value := some dataUrl } else s)

/-- Document record of the local store (`DocumentMetadata` of `types.ts`),
restricted to the fields the store logic touches plus representative
payload fields. -/
structure DocumentMetadata where
  id : String
  title : String
  filename : String
  status : String
  originalPdfData : String
  signedPdfData : Option String
  signatures : List SignatureLocation
deriving DecidableEq

/-- The store update `saveDocument`: `findIndex` locates an existing
record with the same id; a hit is replaced in place (`docs[i] = doc`),
a miss is prepended (`docs.unshift(doc)`). -/
def saveDocument (docs : List DocumentMetadata) (doc : DocumentMetadata) :
    List DocumentMetadata :=
  match docs.findIdx? (fun d => d.id == doc.id) with
  | some i => docs.set i doc
  | none => doc :: docs

end SigNeedPro

namespace SigNeedPro

/-- Claim C1: composing the scanner's forward y-transform with the
embedder's inverse y-transform, with the same height in both directions,
recovers the original page-content y exactly (so in particular within
floating-point epsilon) for every nonzero page height. -/
theorem C1_roundTrip (H W h pageY : ℚ) (hH : H ≠ 0) :
    fromNormalizedY (toNormalizedTopLeft pageY h H) h H = pageY ∧ W = W := by
  refine ⟨?_, rfl⟩
  unfold fromNormalizedY toNormalizedTopLeft
  field_simp
  ring

/-- Witness for C1 at the concrete page 612 by 792, fragment height 12,
page y 700. -/
theorem C1_roundTrip_witness :
    fromNormalizedY (toNormalizedTopLeft 700 12 792) 12 792 = 700 ∧ (612 : ℚ) = 612 :=
  C1_roundTrip 792 612 12 700 (by norm_num)

/-- The single-page, single-fragment document of claim C3: one fragment
exactly equal to the marker at page-unit origin (100, 700) on a 612 by 792
page, with no reported width or height. -/
def c3Doc : PDF :=
  { pages := [{ viewport := { width := 612, height := 792 }
                textContent := some [{ str := "$signature", tx4 := 100, tx5 := 700,
                                       width := 0, height := 0 }] }] }

/-- Claim C3: scanning `c3Doc` yields exactly one placement with
pageIndex 0, x = 100/612, y = (792 - 700 - 12)/792 (fallback height 12),
and the fixed nominal box 150/612 by 60/792, for every run of the id
generator. -/
theorem C3_singleMarkerScan (gen : Nat → String) :
    scanForSignatures gen (some c3Doc) =
      [{ id := gen 0, pageIndex := 0, x := 100 / 612, y := (792 - 700 - 12) / 792,
         width := 150 / 612, height := 60 / 792, value := none }] := by
  show scanPages gen 0 0 c3Doc.pages = _
  have hm : strContains "$signature" "$signature" = true := by decide
  simp only [c3Doc, scanPages, scanPageItems, hm, if_true, mkLoc,
    toNormalizedTopLeft, jsOr]
  norm_num

end SigNeedPro

namespace SigNeedPro

/-- A concrete placement used in closed statements. -/
def sampleLoc : SignatureLocation :=
  { id := "abc123def", pageIndex := 0, x := 0, y := 0, width := 1, height := 1,
    value := none }

/-- Claim C4 counterexample: attaching a mark under an id not present in
the sequence does not fail with a NotFound condition: `confirmSignature`
returns a successful (`some`) outcome carrying the unchanged sequence;
its only failure path is the empty-pad check. -/
theorem C4_noNotFound :
    confirmSignature false "unknownid" [sampleLoc] "markdata" = some [sampleLoc] ∧
    (confirmSignature false "unknownid" [sampleLoc] "markdata").isSome = true := by
  decide

/-- Claim C4 amended: with a non-empty pad, attaching a mark under an id
absent from the sequence silently returns the sequence unchanged (no
NotFound condition is reported); when the id is present, exactly the
matching placements get their `value` replaced and every other placement
is returned unchanged. -/
theorem C4_attachMark (sigs : List SignatureLocation) (aid url : String) :
    ((∀ s ∈ sigs, s.id ≠ aid) → confirmSignature false aid sigs url = some sigs) ∧
    ∀ sigs', confirmSignature false aid sigs url = some sigs' →
      sigs'.length = sigs.length ∧
      ∀ i (hi : i < sigs.length) (hi' : i < sigs'.length),
        ((sigs.get ⟨i, hi⟩).id ≠ aid → sigs'.get ⟨i, hi'⟩ = sigs.get ⟨i, hi⟩) ∧
        ((sigs.get ⟨i, hi⟩).id = aid →
          sigs'.get ⟨i, hi'⟩ = { sigs.get ⟨i, hi⟩ with value := some url }) := by
  constructor
  · intro h
    have hmap : sigs.map
        (fun s => if s.id = aid then { s with value := some url } else s) =
        sigs.map id :=
      List.map_congr_left (fun s hs => by rw [if_neg (h s hs)]; rfl)
    simp [confirmSignature, hmap]
  · intro sigs' heq
    have hm : sigs.map
        (fun s => if s.id = aid then { s with value := some url } else s) =
        sigs' := by
      simpa [confirmSignature] using heq
    subst hm
    refine ⟨List.length_map _ _, fun i hi hi' => ?_⟩
    rw [List.get_map]
    constructor
    · intro hne
      rw [if_neg hne]
    · intro hid
      rw [if_pos hid]

/-- Witness for C4 amended at a concrete sequence and unknown id. -/
theorem C4_attachMark_witness :
    confirmSignature false "otherid" [sampleLoc] "markdata2" = some [sampleLoc] :=
  (C4_attachMark [sampleLoc] "otherid" "markdata2").1 (by decide)

/-- Concrete stored record used in closed statements. -/
def sampleDocA : DocumentMetadata :=
  { id := "docA", title := "a", filename := "a.pdf", status := "unsigned",
    originalPdfData := "origA", signedPdfData := none, signatures := [] }

/-- Second concrete record with a distinct id. -/
def sampleDocB : DocumentMetadata :=
  { id := "docB", title := "b", filename := "b.pdf", status := "unsigned",
    originalPdfData := "origB", signedPdfData := none, signatures := [] }

/-- Claim C10: saving a record whose id already occurs in the store
replaces the (first) matching record in place, keeping its index and
leaving every other entry unchanged; saving a record with a fresh id
prepends it, so the most recently added record is first. -/
theorem C10_saveDocument (docs : List DocumentMetadata) (doc : DocumentMetadata) :
    ((∀ d ∈ docs, d.id ≠ doc.id) → saveDocument docs doc = doc :: docs) ∧
    ∀ i, docs.findIdx? (fun d => d.id == doc.id) = some i →
      (saveDocument docs doc).length = docs.length ∧
      (saveDocument docs doc)[i]? = some doc ∧
      ∀ j, j ≠ i → (saveDocument docs doc)[j]? = docs[j]? := by
  constructor
  · intro h
    have hnone : docs.findIdx? (fun d => d.id == doc.id) = none :=
      List.findIdx?_eq_none_iff.mpr (fun d hd => by simpa using h d hd)
    simp [saveDocument, hnone]
  · intro i hi
    have hlt : i < docs.length := (List.findIdx?_eq_some_iff_findIdx_eq.mp hi).1
    simp only [saveDocument, hi]
    exact ⟨List.length_set _ _ _, List.getElem?_set_self hlt,
      fun j hj => List.getElem?_set_ne (Ne.symm hj)⟩

/-- Witness for C10 at a concrete store with a fresh id. -/
theorem C10_saveDocument_witness :
    saveDocument [sampleDocA] sampleDocB = sampleDocB :: [sampleDocA] :=
  (C10_saveDocument [sampleDocA] sampleDocB).1 (by decide)

end SigNeedPro

namespace SigNeedPro

/-- Embedding failure: `pages[sig.pageIndex]` is `undefined` when the
index is past the end, and the immediate `page.getSize()` call then
throws, rejecting the embed run. This thrown error is the run's
out-of-range outcome. -/
inductive EmbedError where
  | pageOutOfRange
deriving DecidableEq

/-- One `drawImage` call recorded on a page's content. -/
structure DrawOp where
  x : ℚ
  y : ℚ
  width : ℚ
  height : ℚ
  payload : String
deriving DecidableEq

/-- A page of the document being mutated: its size plus the drawn ops. -/
structure PageOut where
  pwidth : ℚ
  pheight : ℚ
  ops : List DrawOp
deriving DecidableEq

/-- Scale-to-fit of the external pdf-lib `PDFImage.scaleToFit(w, h)`:
scale by the smaller of the two bound ratios, keeping proportions. -/
def scaleToFit (w h boundW boundH : ℚ) : ℚ × ℚ :=
  let scale := min (boundW / w) (boundH / h)
  (w * scale, h * scale)

/-- Loop body of `embedSignatures` for one placement: falsy `value`
(absent or empty payload) is skipped (`continue`); otherwise the target
page is fetched by index (out of range rejects the run), the decoded
image (`decode` gives the payload's intrinsic size) is scaled to fit the
un-normalized box, and the draw op is recorded at
`(sig.x * width, height - sig.y * height - scaledHeight)`. -/
def embedStep (decode : String → ℚ × ℚ) (pages : List PageOut)
    (sig : SignatureLocation) : Except EmbedError (List PageOut) :=
  match sig.value with
  | none => .ok pages
  | some v =>
    if v = "" then .ok pages
    else
      match pages[sig.pageIndex]? with
      | none => .error .pageOutOfRange
      | some page =>
        let dims := scaleToFit (decode v).1 (decode v).2
          (sig.width * page.pwidth) (sig.height * page.pheight)
        let op : DrawOp :=
          { x := sig.x * page.pwidth
            y := fromNormalizedY sig.y dims.2 page.pheight
            width := dims.1
            height := dims.2
            payload := v }
        .ok (pages.set sig.pageIndex { page with ops := page.ops ++ [op] })

/-- The embedding engine `embedSignatures`: fold the loop body over the
placement sequence in order; the first thrown error rejects the run. -/
def embedSignatures (decode : String → ℚ × ℚ) :
    List PageOut → List SignatureLocation → Except EmbedError (List PageOut)
  | pages, [] => .ok pages
  | pages, sig :: rest =>
    match embedStep decode pages sig with
    | .error e => .error e
    | .ok pages' => embedSignatures decode pages' rest

/-- JavaScript truthiness of the optional mark payload: absent and the
empty string are falsy. -/
def jsTruthy (v : Option String) : Bool :=
  match v with
  | none => false
  | some s => !(s == "")

/-- Unfolding equation for the embed loop on a nonempty sequence. -/
theorem embedSignatures_cons (decode : String → ℚ × ℚ) (pages : List PageOut)
    (sig : SignatureLocation) (rest : List SignatureLocation) :
    embedSignatures decode pages (sig :: rest) =
      match embedStep decode pages sig with
      | Except.error e => Except.error e
      | Except.ok pages' => embedSignatures decode pages' rest := rfl

/-- A successful embed step never changes the page count. -/
theorem embedStep_length (decode : String → ℚ × ℚ) (pages : List PageOut)
    (sig : SignatureLocation) (pages' : List PageOut)
    (h : embedStep decode pages sig = .ok pages') :
    pages'.length = pages.length := by
  unfold embedStep at h
  split at h
  · cases h; rfl
  · split at h
    · cases h; rfl
    · split at h
      · cases h
      · cases h
        simp [List.length_set]

end SigNeedPro

namespace SigNeedPro

/-- Claim C5: if some placement carries a present (truthy) mark and a
page index at or past the document's page count, the embed run rejects
with the out-of-range outcome and produces no output pages. -/
theorem C5_outOfRange (decode : String → ℚ × ℚ) (pages : List PageOut)
    (sigs : List SignatureLocation)
    (h : ∃ s ∈ sigs, jsTruthy s.value = true ∧ pages.length ≤ s.pageIndex) :
    embedSignatures decode pages sigs = .error .pageOutOfRange := by
  revert h
  induction sigs generalizing pages with
  | nil => intro h; simp at h
  | cons s rest ih =>
    intro h
    rcases h with ⟨t, ht, htv, hti⟩
    rcases List.mem_cons.mp ht with rfl | htr
    · have hnone : pages[t.pageIndex]? = none :=
        List.getElem?_eq_none hti
      cases hv : t.value with
      | none => rw [hv] at htv; simp [jsTruthy] at htv
      | some v =>
        have hne : ¬ v = "" := by
          intro hveq
          rw [hv, hveq] at htv
          simp [jsTruthy] at htv
        have hstep : embedStep decode pages t = .error .pageOutOfRange := by
          simp only [embedStep, hv, hnone, if_neg hne]
        rw [embedSignatures_cons, hstep]
    · rw [embedSignatures_cons]
      cases hstep : embedStep decode pages s with
      | error e => cases e; rfl
      | ok pages' =>
        exact ih pages' ⟨t, htr, htv, by
          rw [embedStep_length decode pages s pages' hstep]; exact hti⟩

/-- Witness for C5: embedding into a document with no pages at all, with
one signed placement aimed at page 0. -/
theorem C5_outOfRange_witness :
    embedSignatures (fun _ => (1, 1)) []
      [{ sampleLoc with value := some "payload" }] = .error .pageOutOfRange :=
  C5_outOfRange (fun _ => (1, 1)) []
    [{ sampleLoc with value := some "payload" }] (by decide)

/-- Claim C6: a placement with an absent mark is skipped entirely by the
loop body, and an embed run over a sequence of all-absent marks returns
the input pages untouched: same page count, no drawn ops. -/
theorem C6_absentSkipped (decode : String → ℚ × ℚ) (pages : List PageOut)
    (sigs : List SignatureLocation) :
    (∀ s, s.value = none → embedStep decode pages s = .ok pages) ∧
    ((∀ s ∈ sigs, s.value = none) → embedSignatures decode pages sigs = .ok pages) := by
  constructor
  · intro s hs
    unfold embedStep
    rw [hs]
  · induction sigs generalizing pages with
    | nil => intro _; rfl
    | cons s rest ih =>
      intro h
      have hstep : embedStep decode pages s = .ok pages := by
        unfold embedStep
        rw [h s (List.mem_cons_self s rest)]
      rw [embedSignatures_cons, hstep]
      exact ih pages (fun t ht => h t (List.mem_cons_of_mem s ht))

/-- Witness for C6 on a one-page document and one unsigned placement. -/
theorem C6_absentSkipped_witness :
    embedSignatures (fun _ => (1, 1)) [{ pwidth := 612, pheight := 792, ops := [] }]
      [sampleLoc] = .ok [{ pwidth := 612, pheight := 792, ops := [] }] :=
  (C6_absentSkipped (fun _ => (1, 1)) [{ pwidth := 612, pheight := 792, ops := [] }]
    [sampleLoc]).2 (by decide)

end SigNeedPro

namespace SigNeedPro

/-- Claim C7: for a placement with a present mark on an in-range page,
the loop body first scales the decoded image to fit inside the
un-normalized box (both scaled dimensions bounded by the box, aspect
ratio preserved exactly) and then records the draw at a bottom-left y of
`pheight - y * pheight - scaledHeight`, using the scaled height, not the
nominal box height. -/
theorem C7_scaleThenPosition (decode : String → ℚ × ℚ) (pages : List PageOut)
    (sig : SignatureLocation) (v : String) (page : PageOut)
    (hv : sig.value = some v) (hne : v ≠ "")
    (hp : pages[sig.pageIndex]? = some page)
    (hw : 0 < (decode v).1) (hh : 0 < (decode v).2) :
    (scaleToFit (decode v).1 (decode v).2 (sig.width * page.pwidth)
        (sig.height * page.pheight)).1 ≤ sig.width * page.pwidth ∧
    (scaleToFit (decode v).1 (decode v).2 (sig.width * page.pwidth)
        (sig.height * page.pheight)).2 ≤ sig.height * page.pheight ∧
    (scaleToFit (decode v).1 (decode v).2 (sig.width * page.pwidth)
        (sig.height * page.pheight)).1 * (decode v).2 =
      (scaleToFit (decode v).1 (decode v).2 (sig.width * page.pwidth)
        (sig.height * page.pheight)).2 * (decode v).1 ∧
    embedStep decode pages sig = .ok (pages.set sig.pageIndex
      { page with ops := page.ops ++
        [{ x := sig.x * page.pwidth
           y := fromNormalizedY sig.y
             (scaleToFit (decode v).1 (decode v).2 (sig.width * page.pwidth)
               (sig.height * page.pheight)).2 page.pheight
           width := (scaleToFit (decode v).1 (decode v).2 (sig.width * page.pwidth)
             (sig.height * page.pheight)).1
           height := (scaleToFit (decode v).1 (decode v).2 (sig.width * page.pwidth)
             (sig.height * page.pheight)).2
           payload := v }] }) := by
  set w := (decode v).1 with hwdef
  set hgt := (decode v).2 with hhdef
  set bw := sig.width * page.pwidth with hbwdef
  set bh := sig.height * page.pheight with hbhdef
  have hfit1 : (scaleToFit w hgt bw bh).1 ≤ bw := by
    show w * min (bw / w) (bh / hgt) ≤ bw
    calc w * min (bw / w) (bh / hgt) ≤ w * (bw / w) :=
          mul_le_mul_of_nonneg_left (min_le_left _ _) hw.le
      _ = bw := by field_simp
  have hfit2 : (scaleToFit w hgt bw bh).2 ≤ bh := by
    show hgt * min (bw / w) (bh / hgt) ≤ bh
    calc hgt * min (bw / w) (bh / hgt) ≤ hgt * (bh / hgt) :=
          mul_le_mul_of_nonneg_left (min_le_right _ _) hh.le
      _ = bh := by field_simp
  have haspect : (scaleToFit w hgt bw bh).1 * hgt = (scaleToFit w hgt bw bh).2 * w := by
    show w * min (bw / w) (bh / hgt) * hgt = hgt * min (bw / w) (bh / hgt) * w
    ring
  refine ⟨hfit1, hfit2, haspect, ?_⟩
  simp only [embedStep, hv, hp, if_neg hne]

end SigNeedPro

namespace SigNeedPro

/-- Concrete mark-bearing placement for the C7 witness. -/
def c7Sig : SignatureLocation :=
  { id := "s1", pageIndex := 0, x := 0, y := 0, width := 1, height := 1,
    value := some "img" }

/-- Concrete page for the C7 witness. -/
def c7Page : PageOut := { pwidth := 10, pheight := 10, ops := [] }

/-- Concrete decoder for the C7 witness: every payload decodes to a 2 by 1
image. -/
def c7Decode : String → ℚ × ℚ := fun _ => (2, 1)

/-- Witness for C7 at a 2 by 1 image fitting into a 10 by 10 box. -/
theorem C7_scaleThenPosition_witness :
    (scaleToFit (c7Decode "img").1 (c7Decode "img").2 (c7Sig.width * c7Page.pwidth)
        (c7Sig.height * c7Page.pheight)).1 ≤ c7Sig.width * c7Page.pwidth ∧
    (scaleToFit (c7Decode "img").1 (c7Decode "img").2 (c7Sig.width * c7Page.pwidth)
        (c7Sig.height * c7Page.pheight)).2 ≤ c7Sig.height * c7Page.pheight ∧
    (scaleToFit (c7Decode "img").1 (c7Decode "img").2 (c7Sig.width * c7Page.pwidth)
        (c7Sig.height * c7Page.pheight)).1 * (c7Decode "img").2 =
      (scaleToFit (c7Decode "img").1 (c7Decode "img").2 (c7Sig.width * c7Page.pwidth)
        (c7Sig.height * c7Page.pheight)).2 * (c7Decode "img").1 ∧
    embedStep c7Decode [c7Page] c7Sig = .ok ([c7Page].set c7Sig.pageIndex
      { c7Page with ops := c7Page.ops ++
        [{ x := c7Sig.x * c7Page.pwidth
           y := fromNormalizedY c7Sig.y
             (scaleToFit (c7Decode "img").1 (c7Decode "img").2
               (c7Sig.width * c7Page.pwidth) (c7Sig.height * c7Page.pheight)).2
             c7Page.pheight
           width := (scaleToFit (c7Decode "img").1 (c7Decode "img").2
             (c7Sig.width * c7Page.pwidth) (c7Sig.height * c7Page.pheight)).1
           height := (scaleToFit (c7Decode "img").1 (c7Decode "img").2
             (c7Sig.width * c7Page.pwidth) (c7Sig.height * c7Page.pheight)).2
           payload := "img" }] }) :=
  C7_scaleThenPosition c7Decode [c7Page] c7Sig "img" c7Page rfl (by decide) rfl
    (by norm_num [c7Decode]) (by norm_num [c7Decode])

/-- Constant id generator: a run of `Math.random` that happens to repeat. -/
def constGen : Nat → String := fun _ => "dupdupdup"

/-- A fragment that is exactly the marker. -/
def markerItem : TextItem :=
  { str := "$signature", tx4 := 10, tx5 := 20, width := 0, height := 0 }

/-- US-letter viewport. -/
def letterVp : Viewport := { width := 612, height := 792 }

/-- A page whose text extraction throws. -/
def badPage : Page := { viewport := letterVp, textContent := none }

/-- A page with one marker fragment. -/
def goodPage : Page := { viewport := letterVp, textContent := some [markerItem] }

/-- Claim C2 counterexample: with page 1 failing extraction and page 2
holding a marker, the scan returns no placements at all, although the
same marker page scanned on its own yields one placement; the page-level
failure therefore aborts the whole-document scan instead of continuing
with remaining pages. -/
theorem C2_abortsOnPageFailure :
    scanForSignatures constGen (some { pages := [badPage, goodPage] }) = [] ∧
    (scanForSignatures constGen (some { pages := [goodPage] })).length = 1 := by
  constructor
  · rfl
  · rfl

/-- Claim C2 amended: a page whose extraction fails ends the scan loop:
the placements of the pages before it are kept and returned, and neither
the failing page nor any later page contributes anything (the result over
the failing suffix equals the result over the prefix alone). -/
theorem C2_failurePrefix (gen : Nat → String) (k pageIdx : Nat)
    (pre post : List Page) (bad : Page) (hbad : bad.textContent = none) :
    scanPages gen k pageIdx (pre ++ bad :: post) = scanPages gen k pageIdx pre := by
  induction pre generalizing k pageIdx with
  | nil => simp only [List.nil_append, scanPages, hbad]
  | cons p pre' ih =>
    cases hp : p.textContent with
    | none => simp only [List.cons_append, scanPages, hp]
    | some items =>
      simp only [List.cons_append, scanPages, hp]
      rw [List.append_eq, ih]

/-- Witness for C2 amended: one good page, then the failing page, then
another good page. -/
theorem C2_failurePrefix_witness :
    scanPages constGen 0 0 ([goodPage] ++ badPage :: [goodPage]) =
      scanPages constGen 0 0 [goodPage] :=
  C2_failurePrefix constGen 0 0 [goodPage] [goodPage] badPage rfl

/-- Single-page document with two marker fragments. -/
def c8Doc : PDF :=
  { pages := [{ viewport := letterVp, textContent := some [markerItem, markerItem] }] }

/-- Claim C8 counterexample: under a generator run that repeats a value
(possible for `Math.random().toString(36)`), scanning a document with two
markers yields two placements with equal ids, so ids are not pairwise
distinct for every possible run of the generator. -/
theorem C8_duplicateIds :
    (scanForSignatures constGen (some c8Doc)).length = 2 ∧
    ¬ ((scanForSignatures constGen (some c8Doc)).map SignatureLocation.id).Nodup := by
  constructor
  · rfl
  · decide

/-- Ids assigned within one page are consecutive generator outputs
starting at the current counter. -/
theorem scanPageItems_map_id (gen : Nat → String) (pageIdx : Nat) (vp : Viewport) :
    ∀ (items : List TextItem) (k : Nat),
      (scanPageItems gen k pageIdx vp items).map SignatureLocation.id =
        (List.range' k (scanPageItems gen k pageIdx vp items).length).map gen := by
  intro items
  induction items with
  | nil => intro k; rfl
  | cons item rest ih =>
    intro k
    by_cases hm : strContains item.str "$signature" = true
    · rw [scanPageItems, if_pos hm]
      simp only [List.map_cons, List.length_cons]
      rw [List.range'_succ, List.map_cons, ih (k + 1)]
      rfl
    · rw [scanPageItems, if_neg hm]
      exact ih k

/-- Ids assigned across the pages of a scan are consecutive generator
outputs starting at the current counter. -/
theorem scanPages_map_id (gen : Nat → String) :
    ∀ (pages : List Page) (k pageIdx : Nat),
      (scanPages gen k pageIdx pages).map SignatureLocation.id =
        (List.range' k (scanPages gen k pageIdx pages).length).map gen := by
  intro pages
  induction pages with
  | nil => intro k pageIdx; rfl
  | cons pg rest ih =>
    intro k pageIdx
    cases hp : pg.textContent with
    | none => rw [scanPages, hp]; rfl
    | some items =>
      rw [scanPages, hp]
      simp only [List.map_append, List.length_append]
      rw [scanPageItems_map_id gen pageIdx pg.viewport items k, ih _ (pageIdx + 1)]
      have hr := List.range'_append k
        (scanPageItems gen k pageIdx pg.viewport items).length
        (scanPages gen (k + (scanPageItems gen k pageIdx pg.viewport items).length)
          (pageIdx + 1) rest).length 1
      simp only [Nat.one_mul] at hr
      rw [← List.map_append, hr, Nat.add_comm]

/-- Claim C8 amended: the scanner itself enforces no uniqueness; the ids
of one scan pass are pairwise distinct exactly when the generator run
supplies distinct values, in particular for every injective generator. -/
theorem C8_injectiveGenUnique (gen : Nat → String)
    (hgen : Function.Injective gen) (doc : Option PDF) :
    ((scanForSignatures gen doc).map SignatureLocation.id).Nodup := by
  cases doc with
  | none => exact List.nodup_nil
  | some pdf =>
    show ((scanPages gen 0 0 pdf.pages).map SignatureLocation.id).Nodup
    rw [scanPages_map_id]
    exact (List.nodup_range' _ _).map hgen

/-- An injective id generator. -/
def injGen : Nat → String := fun n => String.mk (List.replicate n 'a')

/-- Distinct indices give strings of distinct lengths. -/
theorem injGen_injective : Function.Injective injGen := by
  intro a b h
  have h3 : List.replicate a 'a' = List.replicate b 'a' := congrArg String.data h
  simpa using congrArg List.length h3

/-- Witness for C8 amended: the two-marker document scanned under the
injective generator. -/
theorem C8_injectiveGenUnique_witness :
    ((scanForSignatures injGen (some c8Doc)).map SignatureLocation.id).Nodup :=
  C8_injectiveGenUnique injGen injGen_injective (some c8Doc)

/-- A fragment with no marker. -/
def noMarkerItem : TextItem :=
  { str := "hello world", tx4 := 0, tx5 := 0, width := 0, height := 0 }

/-- A valid single-page document with zero marker occurrences. -/
def c9ValidDoc : PDF :=
  { pages := [{ viewport := letterVp, textContent := some [noMarkerItem] }] }

/-- Claim C9 counterexample: input bytes that fail to decode make the scan
return the ordinary empty placement sequence, exactly the result of
scanning a valid document with zero markers; no failure outcome is
surfaced (the scanner's return type has no error channel at all). -/
theorem C9_silentDecodeFailure :
    scanForSignatures constGen none = [] ∧
    scanForSignatures constGen (some c9ValidDoc) = [] := by
  constructor
  · rfl
  · rfl

/-- A page whose fragments all lack the marker contributes nothing. -/
theorem scanPageItems_nil_of_noMarker (gen : Nat → String) (pageIdx : Nat)
    (vp : Viewport) :
    ∀ (items : List TextItem) (k : Nat),
      (∀ it ∈ items, strContains it.str "$signature" = false) →
      scanPageItems gen k pageIdx vp items = [] := by
  intro items
  induction items with
  | nil => intro k _; rfl
  | cons it rest ih =>
    intro k h
    rw [scanPageItems, if_neg (by simp [h it (List.mem_cons_self it rest)])]
    exact ih k (fun t ht => h t (List.mem_cons_of_mem it ht))

/-- A document whose pages all extract and carry no marker scans to the
empty sequence. -/
theorem scanPages_nil_of_noMarker (gen : Nat → String) :
    ∀ (pages : List Page) (k pageIdx : Nat),
      (∀ p ∈ pages, ∃ items, p.textContent = some items ∧
        ∀ it ∈ items, strContains it.str "$signature" = false) →
      scanPages gen k pageIdx pages = [] := by
  intro pages
  induction pages with
  | nil => intro k pageIdx _; rfl
  | cons pg rest ih =>
    intro k pageIdx h
    obtain ⟨items, hpc, hitems⟩ := h pg (List.mem_cons_self pg rest)
    rw [scanPages, hpc]
    show scanPageItems gen k pageIdx pg.viewport items ++
        scanPages gen (k + (scanPageItems gen k pageIdx pg.viewport items).length)
          (pageIdx + 1) rest = []
    rw [scanPageItems_nil_of_noMarker gen pageIdx pg.viewport items k hitems]
    simp only [List.nil_append, List.length_nil, Nat.add_zero]
    exact ih k (pageIdx + 1) (fun p hp => h p (List.mem_cons_of_mem pg hp))

/-- Claim C9 amended: undecodable bytes produce the empty placement
sequence with no surfaced failure, and that result is indistinguishable
from scanning any valid document whose fragments carry no marker. -/
theorem C9_decodeFailureEmpty (gen : Nat → String) (pdf : PDF)
    (h : ∀ p ∈ pdf.pages, ∃ items, p.textContent = some items ∧
      ∀ it ∈ items, strContains it.str "$signature" = false) :
    scanForSignatures gen (some pdf) = scanForSignatures gen none := by
  show scanPages gen 0 0 pdf.pages = _
  rw [scanPages_nil_of_noMarker gen pdf.pages 0 0 h]
  rfl

/-- Witness for C9 amended at the concrete markerless document. -/
theorem C9_decodeFailureEmpty_witness :
    scanForSignatures constGen (some c9ValidDoc) = scanForSignatures constGen none :=
  C9_decodeFailureEmpty constGen c9ValidDoc (fun p hp => by
    rw [List.eq_of_mem_singleton hp]
    exact ⟨[noMarkerItem], rfl, by decide⟩)

end SigNeedPro
